import Mathlib

/-!
Verification of the command/event orchestration layer of the `timeflip`
command-line tool (`src/timeflippers/src/bin/timeflip.rs`), in particular the
history reconciliation algorithm of `Command::run` (the `History` arm), the
notify event-consumption loop (the `Notify` arm), and the top-level
`select!`-based run loop in `main`.

The embedding is shallow: the device, the file system and serde are oracles
passed in as explicit parameters; the control flow of the Rust code is
reproduced as pure Lean functions over those oracles.
-/

namespace Timeflip

/-- Modelled from the spec (the `Entry` type lives in the `timeflippers`
library crate, which is not part of the visible source): a `LogEntry` has a
globally unique unsigned integer `id` (`u32` in the code; the binary only ever
compares ids, never does arithmetic on them, so embedding them as `Nat`
preserves every comparison), a facet index, and a payload describing the
transition and its timestamp (abstracted to a `Nat`, since the orchestration
layer never inspects it). -/
structure Entry where
  id : Nat
  facet : Nat
  payload : Nat
deriving DecidableEq, Repr

/-- Modelled from the spec: the configuration holds a password for the initial
connection and per-facet display names; the history/sync/write-config commands
only test for its presence. -/
structure Config where
  password : String
  sides : List (Option String)
deriving DecidableEq, Repr

/-- The ids of a fetched batch, mirroring
`let new_ids = update.iter().map(|e| e.id).collect::<Vec<_>>()`
(timeflip.rs line 139). -/
def newIds (update : List Entry) : List Nat :=
  update.map (fun e => e.id)

/-- The reconciliation step of the `History` arm (timeflip.rs lines 139-141):
`entries.retain(|entry| !new_ids.contains(&entry.id)); entries.append(&mut update);`
— drop every cached entry whose id occurs in the fetched batch, then append
the fetched batch. -/
def reconcile (entries update : List Entry) : List Entry :=
  entries.filter (fun entry => !((newIds update).contains entry.id)) ++ update

/-- `entries.sort_by(|a, b| a.id.cmp(&b.id))` (timeflip.rs line 120): a stable
sort ascending by id, embedded as `List.mergeSort` (also a stable merge sort). -/
def sortById (es : List Entry) : List Entry :=
  es.mergeSort (fun a b => a.id ≤ b.id)

/-- The maximum id occurring in a list of entries, `0` if there is none. -/
def maxId (es : List Entry) : Nat :=
  es.foldr (fun e m => max e.id m) 0

/-- Outcome of `fs::read_to_string(file)` in the `History` arm: the file's
content, a `NotFound` error, or any other I/O error (timeflip.rs
lines 117-131). -/
inductive ReadResult where
  | ok (s : String)
  | notFound
  | otherError (msg : String)
deriving DecidableEq, Repr

/-- The errors the embedded commands can surface (all become `anyhow::Error`
in the binary). -/
inductive CmdError where
  | configMissing
  | parseError
  | readError (msg : String)
  | deviceError (msg : String)
deriving DecidableEq, Repr

/-- Device-session operations, recorded as a trace so that "no device call is
made on this path" is a provable statement. -/
inductive DeviceCall where
  | readHistorySince (id : Nat)
  | syncDevice
  | writeConfigDevice
deriving DecidableEq, Repr

/-- Loading the cache in the `History` arm when `--update FILE` was given
(timeflip.rs lines 117-132): on a successful read the content is parsed
(`serde_json::from_str`, abstracted as the `parse` oracle; a parse failure is
propagated by `?` and is fatal), the parsed entries are sorted ascending by
id, and the resume point is `start_with.or_else(|| entries.last().map(|e| e.id)).unwrap_or(0)`;
a `NotFound` read error yields an empty cache with resume point
`start_with.unwrap_or(0)`; any other read error is propagated and fatal. -/
def loadCache (read : ReadResult) (parse : String → Option (List Entry))
    (startWith : Option Nat) : Except CmdError (Nat × List Entry) :=
  match read with
  | .ok s =>
    match parse s with
    | some es =>
      let entries := sortById es
      .ok ((startWith <|> (entries.getLast?.map (fun e => e.id))).getD 0, entries)
    | none => .error .parseError
  | .notFound => .ok (startWith.getD 0, [])
  | .otherError msg => .error (.readError msg)

/-- The observable outcome of one run of the `History` arm: the command's
result (the reconciled in-memory entries handed to the `view::History`
renderer, or the error returned by `Command::run`), the trace of device-session
calls made, and the number of warnings printed to stderr. -/
structure HistoryRun where
  result : Except CmdError (List Entry)
  deviceCalls : List DeviceCall
  warnings : Nat
deriving Repr

/-- The `History` arm of `Command::run` (timeflip.rs lines 108-171).
`updateFile` says whether `--update FILE` was passed; `read` and `parse` are
the file-system and serde oracles for loading that file; `startWith` is the
`--start-with` override; `fetch` is the device's answer to
`read_history_since`; `serializeOk`/`writeOk` are the outcomes of
`serde_json::to_vec` and `fs::write` when persisting the updated cache
(a failure there is only reported on stderr, timeflip.rs lines 143-152). -/
def runHistory (config : Option Config) (updateFile : Bool) (read : ReadResult)
    (parse : String → Option (List Entry)) (startWith : Option Nat)
    (fetch : Nat → Except CmdError (List Entry))
    (serializeOk writeOk : Bool) : HistoryRun :=
  match config with
  | none => ⟨.error .configMissing, [], 0⟩
  | some _ =>
    let loaded :=
      if updateFile then loadCache read parse startWith
      else .ok (startWith.getD 0, [])
    match loaded with
    | .error e => ⟨.error e, [], 0⟩
    | .ok (startWith, entries) =>
      match fetch startWith with
      | .error e => ⟨.error e, [.readHistorySince startWith], 0⟩
      | .ok update =>
        let merged := reconcile entries update
        let warnings :=
          if updateFile then
            if serializeOk then (if writeOk then 0 else 1) else 1
          else 0
        ⟨.ok merged, [.readHistorySince startWith], warnings⟩

/-- The `Sync` arm of `Command::run` (timeflip.rs lines 226-229): fail with a
configuration-missing error before any device call when no configuration was
supplied, otherwise perform exactly the `sync` device call. -/
def runSync (config : Option Config) (syncRes : Except CmdError Unit) :
    Except CmdError Unit × List DeviceCall :=
  match config with
  | none => (.error .configMissing, [])
  | some _ => (syncRes, [.syncDevice])

/-- The `WriteConfig` arm of `Command::run` (timeflip.rs lines 241-244): fail
with a configuration-missing error before any device call when no
configuration was supplied, otherwise perform exactly the `write_config`
device call. -/
def runWriteConfig (config : Option Config) (writeRes : Except CmdError Unit) :
    Except CmdError Unit × List DeviceCall :=
  match config with
  | none => (.error .configMissing, [])
  | some _ => (writeRes, [.writeConfigDevice])

/-- "Ascending by id": strictly increasing ids along the list (this is the
spec's "sorted ascending by `id`" together with uniqueness along adjacent
positions; stated as `Pairwise` it is equivalent to `Chain'` for the
transitive relation `<`). -/
def ascendingById (es : List Entry) : Prop :=
  es.Pairwise (fun a b => a.id < b.id)

instance (es : List Entry) : Decidable (ascendingById es) :=
  inferInstanceAs (Decidable (es.Pairwise _))

/-- "Id-unique": no id occurs twice in the list. -/
def idUnique (es : List Entry) : Prop :=
  (es.map (fun e => e.id)).Nodup

instance (es : List Entry) : Decidable (idUnique es) :=
  inferInstanceAs (Decidable (List.Nodup _))

/-- Modelled from the spec (the `Event` type lives in the `timeflippers`
library crate): a `NotificationEvent` is one of battery level, a live log
entry, a facet change, a double tap with a pause flag, or the terminal
`Disconnected` marker — exactly the variants matched by the `Notify` arm
(timeflip.rs lines 199-215). -/
inductive Event where
  | batteryLevel (percent : Nat)
  | logEvent (e : Entry)
  | facetChanged (facet : Nat)
  | doubleTap (facet : Nat) (pause : Bool)
  | disconnected
deriving DecidableEq, Repr

/-- The event-consumption loop of the `Notify` arm (timeflip.rs lines
198-216): the stream is embedded as the finite list of events the transport
would deliver in arrival order (`stream.next()` returns `some` of the next
element and `none` once the list is exhausted). The function returns the
events the loop actually handled (printed), in the order it handled them:
each handled event is printed and the loop continues, except that
`Disconnected` is printed and then the loop breaks; an exhausted stream
(`None`) also breaks the loop. -/
def notifyLoop : List Event → List Event
  | [] => []
  | Event.disconnected :: _ => [Event.disconnected]
  | e :: rest => e :: notifyLoop rest

/-- How many times the loop calls `stream.next()` on the given stream: one
pull per handled event, plus one final pull returning `None` when the stream
ends without a `Disconnected` marker. -/
def notifyPulls : List Event → Nat
  | [] => 1
  | Event.disconnected :: _ => 1
  | _ :: rest => 1 + notifyPulls rest

/-- The result of running the loop body of the `Notify` arm once the stream is
open: the loop always falls through to `Ok(())` (both `break` paths), together
with the handled events. -/
def runNotifyLoop (events : List Event) : Except CmdError Unit × List Event :=
  (.ok (), notifyLoop events)

/-- Which of the three `select!` branches of `main` completes first
(timeflip.rs lines 267-279): the `ctrl_c` interrupt, the bluetooth-session
background task (with its result), or the command branch (with its result). -/
inductive RaceWinner where
  | interrupt
  | background (res : Except String Unit)
  | command (res : Except CmdError Unit)

/-- The result `main` returns given the winning `select!` branch
(timeflip.rs lines 267-281): the interrupt arm only logs and falls through to
`Ok(())`; the background arm logs an error if the task failed but still falls
through to `Ok(())`; the command arm propagates the command's result with
`res?`. -/
def mainResult : RaceWinner → Except CmdError Unit
  | .interrupt => .ok ()
  | .background _ => .ok ()
  | .command res => do
    let _ ← res
    .ok ()

/-! ### Helper lemmas about `maxId` and `sortById` -/

theorem id_le_maxId {es : List Entry} {e : Entry} (h : e ∈ es) : e.id ≤ maxId es := by
  induction es with
  | nil => cases h
  | cons a t ih =>
    rcases List.mem_cons.mp h with rfl | ht
    · exact Nat.le_max_left _ _
    · exact Nat.le_trans (ih ht) (Nat.le_max_right _ _)

theorem maxId_perm {l₁ l₂ : List Entry} (h : l₁.Perm l₂) : maxId l₁ = maxId l₂ := by
  induction h with
  | nil => rfl
  | cons a _ ih => simp [maxId, List.foldr] at ih ⊢; omega
  | swap a b l =>
    simp only [maxId, List.foldr]
    omega
  | trans _ _ ih₁ ih₂ => exact ih₁.trans ih₂

theorem sortById_perm (es : List Entry) : (sortById es).Perm es :=
  List.mergeSort_perm es _

theorem sortById_sorted (es : List Entry) :
    (sortById es).Pairwise (fun a b => a.id ≤ b.id) := by
  have h := @List.sorted_mergeSort Entry (fun a b => a.id ≤ b.id)
    (fun a b c hab hbc => by
      simp only [decide_eq_true_eq] at hab hbc ⊢; omega)
    (fun a b => by
      simp only [Bool.or_eq_true, decide_eq_true_eq]; omega)
    es
  exact h.imp (fun hab => by simpa using hab)

theorem getLastD_id_of_sorted {l : List Entry}
    (hl : l.Pairwise (fun a b => a.id ≤ b.id)) :
    ((l.getLast?.map (fun e => e.id)).getD 0) = maxId l := by
  induction l with
  | nil => rfl
  | cons a t ih =>
    match t with
    | [] => simp [maxId]
    | b :: t' =>
      rw [List.getLast?_cons_cons]
      have hrest := ih (List.Pairwise.of_cons hl)
      rw [hrest]
      have hab : a.id ≤ b.id := (List.pairwise_cons.mp hl).1 b (List.mem_cons_self b t')
      have hb : b.id ≤ maxId (b :: t') := id_le_maxId (List.mem_cons_self b t')
      simp only [maxId, List.foldr] at *
      omega

theorem sortById_getLastD_id (es : List Entry) :
    (((sortById es).getLast?.map (fun e => e.id)).getD 0) = maxId es := by
  rw [getLastD_id_of_sorted (sortById_sorted es)]
  exact maxId_perm (sortById_perm es)

theorem resume_getD (ov : Option Nat) (es : List Entry) :
    ((ov <|> ((sortById es).getLast?.map (fun e => e.id))).getD 0)
      = ov.getD (maxId es) := by
  cases ov with
  | some k => rfl
  | none =>
    show (((sortById es).getLast?.map (fun e => e.id)).getD 0) = maxId es
    exact sortById_getLastD_id es

/-! ### Helper lemmas about `reconcile` -/

theorem mem_filter_reconcile {B C : List Entry} {x : Entry} :
    x ∈ C.filter (fun entry => !((newIds B).contains entry.id)) ↔
      x ∈ C ∧ x.id ∉ newIds B := by
  simp [List.mem_filter]

theorem filter_id_eq_singleton {B : List Entry} {e : Entry}
    (hBu : idUnique B) (heB : e ∈ B) :
    B.filter (fun x => x.id == e.id) = [e] := by
  induction B with
  | nil => cases heB
  | cons b t ih =>
    have hnodup := (List.nodup_cons.mp hBu).1
    have htail : idUnique t := (List.nodup_cons.mp hBu).2
    rcases List.mem_cons.mp heB with rfl | het
    · rw [List.filter_cons_of_pos (by simp)]
      have : t.filter (fun x => x.id == e.id) = [] := by
        rw [List.filter_eq_nil_iff]
        intro x hx
        simp only [beq_iff_eq, decide_eq_true_eq]
        intro hxe
        exact hnodup (List.mem_map.mpr ⟨x, hx, hxe⟩)
      rw [this]
    · have hbe : b.id ≠ e.id := by
        intro hbe
        exact hnodup (List.mem_map.mpr ⟨e, het, hbe.symm⟩)
      rw [List.filter_cons_of_neg (by simpa using hbe)]
      exact ih htail het

/-! ### Claim theorems -/

/-- C1 (counterexample): the claim as stated is false. The cache
`[{id 5}]` and the fetched batch `[{id 3}]` are each ascending by id and
id-unique, yet the reconciled result is `[{id 5}, {id 3}]`, which is not
ascending by id; the history command reaches exactly this result with the
operator override `--start-with 0` when the device log only holds entry 3. -/
theorem reconcile_unsorted_counterexample :
    (ascendingById [⟨5, 0, 0⟩] ∧ idUnique [⟨5, 0, 0⟩] ∧
      ascendingById [⟨3, 0, 0⟩] ∧ idUnique [⟨3, 0, 0⟩]) ∧
    reconcile [⟨5, 0, 0⟩] [⟨3, 0, 0⟩] = [⟨5, 0, 0⟩, ⟨3, 0, 0⟩] ∧
    ¬ ascendingById (reconcile [⟨5, 0, 0⟩] [⟨3, 0, 0⟩]) ∧
    (runHistory (some ⟨"", []⟩) true (.ok "cache") (fun _ => some [⟨5, 0, 0⟩])
        (some 0) (fun _ => .ok [⟨3, 0, 0⟩]) true true).result
      = .ok [⟨5, 0, 0⟩, ⟨3, 0, 0⟩] := by
  refine ⟨by decide, by decide, by decide, ?_⟩
  simp [runHistory, loadCache, sortById, reconcile, newIds]

/-- C1 (amended): for every cached log C and fetched batch B that are each
individually ascending by id and id-unique, the reconciled result is always
id-unique, and it is ascending by id provided every entry of B has an id
strictly greater than that of every entry of C whose id does not appear in B —
as is the case when no override is given, since the fetch then starts strictly
after C's maximum id. Without that proviso (an operator override below the
cache's maximum id, against a device log missing the cached high ids),
sortedness can fail. -/
theorem reconcile_sorted_unique_of_gap (C B : List Entry)
    (hC : ascendingById C) (hCu : idUnique C)
    (hB : ascendingById B) (hBu : idUnique B) :
    idUnique (reconcile C B) ∧
    ((∀ c ∈ C, c.id ∉ newIds B → ∀ b ∈ B, c.id < b.id) →
      ascendingById (reconcile C B)) := by
  have hsub : (C.filter (fun entry => !((newIds B).contains entry.id))).Sublist C :=
    List.filter_sublist C
  constructor
  · unfold idUnique reconcile
    rw [List.map_append]
    apply List.nodup_append.mpr
    refine ⟨(hsub.map _).nodup hCu, hBu, ?_⟩
    intro x hxF hxB
    obtain ⟨a, haF, rfl⟩ := List.mem_map.mp hxF
    exact (mem_filter_reconcile.mp haF).2 hxB
  · intro hgap
    apply List.pairwise_append.mpr
    refine ⟨hC.sublist hsub, hB, ?_⟩
    intro a ha b hb
    obtain ⟨haC, hanot⟩ := mem_filter_reconcile.mp ha
    exact hgap a haC hanot b hb

/-- Witness for C1 (amended): the spec's own concrete scenario, cache
`[{id 1}, {id 2}]` and fetch `[{id 2}, {id 3}]`, where both conjuncts hold;
and the counterexample's non-gap input `[{id 5}]`/`[{id 3}]`, where
id-uniqueness still holds unconditionally. -/
theorem reconcile_sorted_unique_of_gap_witness :
    (idUnique (reconcile [⟨1, 0, 0⟩, ⟨2, 0, 0⟩] [⟨2, 1, 1⟩, ⟨3, 0, 0⟩]) ∧
      ascendingById (reconcile [⟨1, 0, 0⟩, ⟨2, 0, 0⟩] [⟨2, 1, 1⟩, ⟨3, 0, 0⟩])) ∧
    idUnique (reconcile [⟨5, 0, 0⟩] [⟨3, 0, 0⟩]) :=
  ⟨⟨(reconcile_sorted_unique_of_gap [⟨1, 0, 0⟩, ⟨2, 0, 0⟩] [⟨2, 1, 1⟩, ⟨3, 0, 0⟩]
        (by decide) (by decide) (by decide) (by decide)).1,
    (reconcile_sorted_unique_of_gap [⟨1, 0, 0⟩, ⟨2, 0, 0⟩] [⟨2, 1, 1⟩, ⟨3, 0, 0⟩]
        (by decide) (by decide) (by decide) (by decide)).2 (by decide)⟩,
   (reconcile_sorted_unique_of_gap [⟨5, 0, 0⟩] [⟨3, 0, 0⟩]
        (by decide) (by decide) (by decide) (by decide)).1⟩

/-- C3: if an id occurs both in the cached log and in the fetched batch, the
reconciled result contains exactly one entry with that id, namely the
fetched batch's version. -/
theorem reconcile_supersedes (C B : List Entry) (hBu : idUnique B) (e : Entry)
    (heB : e ∈ B) (_heC : ∃ c ∈ C, c.id = e.id) :
    (reconcile C B).filter (fun x => x.id == e.id) = [e] := by
  unfold reconcile
  rw [List.filter_append]
  have h1 : (C.filter (fun entry => !((newIds B).contains entry.id))).filter
      (fun x => x.id == e.id) = [] := by
    rw [List.filter_eq_nil_iff]
    intro x hx
    obtain ⟨_, hxnot⟩ := mem_filter_reconcile.mp hx
    simp only [beq_iff_eq, decide_eq_true_eq]
    intro hxe
    exact hxnot (hxe ▸ List.mem_map.mpr ⟨e, heB, rfl⟩)
  rw [h1, filter_id_eq_singleton hBu heB]
  rfl

/-- Witness for C3: the spec's concrete scenario — cache `[{id 1}, {id 2}]`,
fetch `[{id 2}, {id 3}]` (the device re-sent id 2); the result has exactly one
entry with id 2, it is the fetched version, and the result has length 3,
not 4. -/
theorem reconcile_supersedes_witness :
    (reconcile [⟨1, 0, 0⟩, ⟨2, 0, 0⟩] [⟨2, 1, 1⟩, ⟨3, 0, 0⟩]).filter
        (fun x => x.id == (2 : Nat)) = [⟨2, 1, 1⟩] ∧
    (reconcile [⟨1, 0, 0⟩, ⟨2, 0, 0⟩] [⟨2, 1, 1⟩, ⟨3, 0, 0⟩]).length = 3 :=
  ⟨reconcile_supersedes [⟨1, 0, 0⟩, ⟨2, 0, 0⟩] [⟨2, 1, 1⟩, ⟨3, 0, 0⟩] (by decide)
      ⟨2, 1, 1⟩ (by decide) ⟨⟨2, 0, 0⟩, by decide, rfl⟩,
    by decide⟩

/-- C4: reconciliation is idempotent — if the fetch from the resume point
recomputed on the result of a first reconciliation returns no entries, a
second reconciliation on that result yields it unchanged. -/
theorem reconcile_idempotent (C B : List Entry)
    (fetch2 : Nat → Except CmdError (List Entry))
    (h2 : fetch2 (maxId (reconcile C B)) = .ok []) :
    ∀ B2, fetch2 (maxId (reconcile C B)) = .ok B2 →
      reconcile (reconcile C B) B2 = reconcile C B := by
  intro B2 hB2
  rw [h2] at hB2
  cases hB2
  simp [reconcile, newIds]

/-- Witness for C4: a concrete first reconciliation followed by a second
fetch that returns nothing. -/
theorem reconcile_idempotent_witness :
    reconcile (reconcile [⟨1, 0, 0⟩] [⟨2, 0, 0⟩]) [] = reconcile [⟨1, 0, 0⟩] [⟨2, 0, 0⟩] :=
  reconcile_idempotent [⟨1, 0, 0⟩] [⟨2, 0, 0⟩] (fun _ => .ok []) rfl [] rfl

/-- C2: the resume point passed to `read_history_since` is the operator
override when one is given — regardless of the cache's contents — otherwise
the maximum id present in the cache, otherwise 0: stated for a parsed cache
file, for a missing cache file, and for a run without `--update`. -/
theorem resume_point_correct :
    (∀ (cfg : Config) (s : String) (parse : String → Option (List Entry))
        (es : List Entry) (ov : Option Nat)
        (fetch : Nat → Except CmdError (List Entry)) (sOk wOk : Bool),
      parse s = some es →
      (runHistory (some cfg) true (.ok s) parse ov fetch sOk wOk).deviceCalls
        = [.readHistorySince (ov.getD (maxId es))]) ∧
    (∀ (cfg : Config) (parse : String → Option (List Entry)) (ov : Option Nat)
        (fetch : Nat → Except CmdError (List Entry)) (sOk wOk : Bool),
      (runHistory (some cfg) true .notFound parse ov fetch sOk wOk).deviceCalls
        = [.readHistorySince (ov.getD 0)]) ∧
    (∀ (cfg : Config) (read : ReadResult) (parse : String → Option (List Entry))
        (ov : Option Nat) (fetch : Nat → Except CmdError (List Entry)) (sOk wOk : Bool),
      (runHistory (some cfg) false read parse ov fetch sOk wOk).deviceCalls
        = [.readHistorySince (ov.getD 0)]) := by
  refine ⟨?_, ?_, ?_⟩
  · intro cfg s parse es ov fetch sOk wOk hparse
    simp only [runHistory, loadCache, hparse, if_true, resume_getD]
    cases fetch (ov.getD (maxId es)) <;> rfl
  · intro cfg parse ov fetch sOk wOk
    simp only [runHistory, loadCache, if_true]
    cases fetch (ov.getD 0) <;> rfl
  · intro cfg read parse ov fetch sOk wOk
    cases hf : fetch (ov.getD 0) <;> simp [runHistory, hf]

/-- Witness for C2: an override of 3 beats a cached maximum id of 7. -/
theorem resume_point_correct_witness :
    (runHistory (some ⟨"", []⟩) true (.ok "cache") (fun _ => some [⟨7, 0, 0⟩])
        (some 3) (fun _ => .ok []) true true).deviceCalls
      = [.readHistorySince 3] :=
  resume_point_correct.1 ⟨"", []⟩ "cache" (fun _ => some [⟨7, 0, 0⟩]) [⟨7, 0, 0⟩]
    (some 3) (fun _ => .ok []) true true rfl

/-- C5: when loading the cache for the history command, a missing cache file
is treated exactly like an empty cache (no error, no entries, resume point
the override if given else 0), while a cache file that exists but fails to
parse fails the whole command, as does any other read error. -/
theorem cache_load_errors :
    (∀ (parse : String → Option (List Entry)) (ov : Option Nat),
      loadCache .notFound parse ov = .ok (ov.getD 0, [])) ∧
    (∀ (cfg : Config) (s : String) (parse : String → Option (List Entry))
        (ov : Option Nat) (fetch : Nat → Except CmdError (List Entry)) (sOk wOk : Bool),
      parse s = none →
      (runHistory (some cfg) true (.ok s) parse ov fetch sOk wOk).result
        = .error .parseError) ∧
    (∀ (cfg : Config) (msg : String) (parse : String → Option (List Entry))
        (ov : Option Nat) (fetch : Nat → Except CmdError (List Entry)) (sOk wOk : Bool),
      (runHistory (some cfg) true (.otherError msg) parse ov fetch sOk wOk).result
        = .error (.readError msg)) := by
  refine ⟨fun parse ov => rfl, ?_, fun cfg msg parse ov fetch sOk wOk => rfl⟩
  intro cfg s parse ov fetch sOk wOk hparse
  simp only [runHistory, loadCache, hparse, if_true]

/-- Witness for C5: a concrete unparsable cache file is fatal, and a concrete
missing file yields the empty cache with the override as resume point. -/
theorem cache_load_errors_witness :
    loadCache .notFound (fun _ => none) (some 7) = .ok (7, []) ∧
    (runHistory (some ⟨"", []⟩) true (.ok "garbage") (fun _ => none) none
        (fun _ => .ok []) true true).result = .error .parseError :=
  ⟨cache_load_errors.1 (fun _ => none) (some 7),
    cache_load_errors.2.1 ⟨"", []⟩ "garbage" (fun _ => none) none
      (fun _ => .ok []) true true rfl⟩

/-- C6: a failure while persisting the updated cache (serialization or file
write) does not fail the history command — for every outcome of the persist
step the command's result is the successful in-memory reconciled log, and a
failing persist step is reported as exactly one warning. -/
theorem cache_write_failure_nonfatal (cfg : Config) (read : ReadResult)
    (parse : String → Option (List Entry)) (ov : Option Nat)
    (fetch : Nat → Except CmdError (List Entry)) (sw : Nat)
    (entries update : List Entry)
    (hload : loadCache read parse ov = .ok (sw, entries))
    (hfetch : fetch sw = .ok update) (sOk wOk : Bool) :
    (runHistory (some cfg) true read parse ov fetch sOk wOk).result
      = .ok (reconcile entries update) ∧
    (sOk = false ∨ wOk = false →
      (runHistory (some cfg) true read parse ov fetch sOk wOk).warnings = 1) := by
  constructor
  · simp [runHistory, hload, hfetch]
  · intro h
    rcases h with rfl | rfl
    · simp [runHistory, hload, hfetch]
    · cases sOk <;> simp [runHistory, hload, hfetch]

/-- Witness for C6: a concrete run whose cache write fails still succeeds
with the reconciled result and reports one warning. -/
theorem cache_write_failure_nonfatal_witness :
    (runHistory (some ⟨"", []⟩) true .notFound (fun _ => some []) (some 0)
        (fun _ => .ok [⟨1, 0, 0⟩]) true false).result
      = .ok (reconcile [] [⟨1, 0, 0⟩]) ∧
    (runHistory (some ⟨"", []⟩) true .notFound (fun _ => some []) (some 0)
        (fun _ => .ok [⟨1, 0, 0⟩]) true false).warnings = 1 :=
  ⟨(cache_write_failure_nonfatal ⟨"", []⟩ .notFound (fun _ => some []) (some 0)
      (fun _ => .ok [⟨1, 0, 0⟩]) 0 [] [⟨1, 0, 0⟩] rfl rfl true false).1,
    (cache_write_failure_nonfatal ⟨"", []⟩ .notFound (fun _ => some []) (some 0)
      (fun _ => .ok [⟨1, 0, 0⟩]) 0 [] [⟨1, 0, 0⟩] rfl rfl true false).2
      (Or.inr rfl)⟩

/-- C7: each of the commands history, sync and write-config, when run without
a configuration, fails with the configuration-missing error and performs no
device-session call at all. -/
theorem config_missing_fail_fast :
    (∀ (updateFile : Bool) (read : ReadResult) (parse : String → Option (List Entry))
        (ov : Option Nat) (fetch : Nat → Except CmdError (List Entry)) (sOk wOk : Bool),
      (runHistory none updateFile read parse ov fetch sOk wOk).result
          = .error .configMissing ∧
      (runHistory none updateFile read parse ov fetch sOk wOk).deviceCalls = []) ∧
    (∀ syncRes, runSync none syncRes = (.error .configMissing, [])) ∧
    (∀ writeRes, runWriteConfig none writeRes = (.error .configMissing, [])) :=
  ⟨fun _ _ _ _ _ _ _ => ⟨rfl, rfl⟩, fun _ => rfl, fun _ => rfl⟩

/-- C8: the notify loop handles each delivered event exactly once in arrival
order and terminates at the first `Disconnected` event (treated as the last
handled element, not an error) or at end of stream; it pulls nothing after a
`Disconnected` (one pull per handled event, with one extra pull only when the
stream ends without a `Disconnected`), and the loop result is success in both
cases. -/
theorem notify_loop_behavior :
    (∀ evs : List Event, Event.disconnected ∉ evs →
      notifyLoop evs = evs ∧ notifyPulls evs = evs.length + 1) ∧
    (∀ pre post : List Event, Event.disconnected ∉ pre →
      notifyLoop (pre ++ Event.disconnected :: post) = pre ++ [Event.disconnected] ∧
      notifyPulls (pre ++ Event.disconnected :: post) = pre.length + 1) ∧
    (∀ evs : List Event, (runNotifyLoop evs).fst = .ok ()) := by
  refine ⟨?_, ?_, fun evs => rfl⟩
  · intro evs h
    induction evs with
    | nil => exact ⟨rfl, rfl⟩
    | cons e rest ih =>
      have he : e ≠ Event.disconnected := fun habs => h (habs ▸ List.mem_cons_self e rest)
      have hrest := ih (fun habs => h (List.mem_cons_of_mem e habs))
      cases e <;> simp_all [notifyLoop, notifyPulls] <;> omega
  · intro pre post h
    induction pre with
    | nil => exact ⟨rfl, rfl⟩
    | cons e pre ih =>
      have he : e ≠ Event.disconnected := fun habs => h (habs ▸ List.mem_cons_self e pre)
      have hpre := ih (fun habs => h (List.mem_cons_of_mem e habs))
      cases e <;> simp_all [notifyLoop, notifyPulls] <;> omega

/-- Witness for C8: a concrete stream with events after the `Disconnected`
marker — the loop handles everything up to and including the marker, in
order, with one pull per handled event, and the overall loop result on a
marker-free stream is also as stated. -/
theorem notify_loop_behavior_witness :
    (notifyLoop [.batteryLevel 50, .facetChanged 2, .disconnected, .batteryLevel 10]
        = [Event.batteryLevel 50, Event.facetChanged 2] ++ [Event.disconnected] ∧
      notifyPulls [.batteryLevel 50, .facetChanged 2, .disconnected, .batteryLevel 10]
        = [Event.batteryLevel 50, Event.facetChanged 2].length + 1) ∧
    (notifyLoop [.batteryLevel 50] = [Event.batteryLevel 50] ∧
      notifyPulls [.batteryLevel 50] = [Event.batteryLevel 50].length + 1) :=
  ⟨notify_loop_behavior.2.1 [.batteryLevel 50, .facetChanged 2] [.batteryLevel 10]
      (by decide),
    notify_loop_behavior.1 [.batteryLevel 50] (by decide)⟩

/-- C9: if the operator interrupt wins the three-way `select!` race, `main`
returns success, regardless of what the command branch would eventually have
returned (for contrast: a winning command branch propagates its own result,
and a winning background branch also exits gracefully). -/
theorem interrupt_graceful_exit :
    mainResult .interrupt = .ok () ∧
    (∀ bg, mainResult (.background bg) = .ok ()) ∧
    (∀ res, mainResult (.command res) = res) := by
  refine ⟨rfl, fun bg => rfl, fun res => ?_⟩
  cases res with
  | error e => rfl
  | ok u => cases u; rfl

/-- C10: the history command sorts the parsed cache entries ascending by id
before computing the resume point: for every successfully parsed cache file —
even one stored out of order — loading yields the sorted permutation of the
file's entries together with the default resume point `maxId` (the maximum id
among the file's entries, 0 when there are none). -/
theorem cache_sorted_resume_max (s : String) (parse : String → Option (List Entry))
    (es : List Entry) (hparse : parse s = some es) :
    loadCache (.ok s) parse none = .ok (maxId es, sortById es) ∧
    (sortById es).Pairwise (fun a b => a.id ≤ b.id) ∧
    (sortById es).Perm es := by
  refine ⟨?_, sortById_sorted es, sortById_perm es⟩
  simp only [loadCache, hparse, resume_getD]
  rfl

/-- Witness for C10: a cache file stored out of order, `[id 3, id 1, id 2]`,
loads as the sorted list `[id 1, id 2, id 3]` with resume point 3. -/
theorem cache_sorted_resume_max_witness :
    loadCache (.ok "cache") (fun _ => some [⟨3, 0, 0⟩, ⟨1, 0, 0⟩, ⟨2, 0, 0⟩]) none
      = .ok (3, sortById [⟨3, 0, 0⟩, ⟨1, 0, 0⟩, ⟨2, 0, 0⟩]) ∧
    sortById [⟨3, 0, 0⟩, ⟨1, 0, 0⟩, ⟨2, 0, 0⟩] = [⟨1, 0, 0⟩, ⟨2, 0, 0⟩, ⟨3, 0, 0⟩] :=
  ⟨(cache_sorted_resume_max "cache" (fun _ => some [⟨3, 0, 0⟩, ⟨1, 0, 0⟩, ⟨2, 0, 0⟩])
      [⟨3, 0, 0⟩, ⟨1, 0, 0⟩, ⟨2, 0, 0⟩] rfl).1,
    by simp [sortById, List.mergeSort]⟩

end Timeflip
